import Mathlib

/-!
Verification of the backtesting and technical-indicator engine
(`src/lib/backtesting/engine.ts`).

Numeric model: JavaScript numbers are modelled as rationals (`ℚ`).  The
IEEE-754 `NaN` marker that the indicator pipeline uses for "insufficient
history" is modelled explicitly as `Option ℚ` (`none` = `NaN`); arithmetic
on such values propagates `none` exactly as JS arithmetic propagates `NaN`.
The two statistics whose formulas contain `Math.sqrt` (`sharpeRatio`,
`sortinoRatio`) and the Bollinger-band edges live in `ℝ`.  `Infinity`
values that arise from JS conventions (`profitFactor` when gross loss is
zero, `Math.max()` of an empty spread) are modelled with `Option ℚ`,
documented at each field.  Division `x / 0` is Lean's total division
(result `0`) at the few spots where the source would produce `NaN`/`±∞`;
every such spot is guarded in the source by a comparison that fails for
`NaN`/`-∞` just as it fails for `0`, so the observable results coincide;
this is noted where it matters.
-/

section BacktestEngine

-- Batteries marks the rational field operations irreducible; restoring the
-- default reducibility lets concrete runs of the engine be settled by kernel
-- evaluation (`decide`).
attribute [local semireducible] Rat.add Rat.mul Rat.sub Rat.inv

/-- JS `NaN`-propagating addition on `Option ℚ`. -/
def oAdd : Option ℚ → Option ℚ → Option ℚ
  | some a, some b => some (a + b)
  | _, _ => none

/-- JS `NaN`-propagating subtraction on `Option ℚ`. -/
def oSub : Option ℚ → Option ℚ → Option ℚ
  | some a, some b => some (a - b)
  | _, _ => none

/-- JS `NaN`-propagating multiplication on `Option ℚ`. -/
def oMul : Option ℚ → Option ℚ → Option ℚ
  | some a, some b => some (a * b)
  | _, _ => none

/-- JS `reduce((a, b) => a + b, 0)` over a list that may contain `NaN`. -/
def oSum (l : List (Option ℚ)) : Option ℚ :=
  l.foldl oAdd (some 0)

/-- One OHLCV sample (`interface OHLCV`); the `Date` timestamp is modelled
as an integer (milliseconds since epoch). -/
structure OHLCV where
  timestamp : ℤ
  open_ : ℚ
  high : ℚ
  low : ℚ
  close : ℚ
  volume : ℚ
deriving DecidableEq

instance : Inhabited OHLCV := ⟨⟨0, 0, 0, 0, 0, 0⟩⟩

/-- `'LONG' | 'SHORT'`. -/
inductive TradeType where
  | LONG
  | SHORT
deriving DecidableEq

/-- The `exitReason` union type of `BacktestTrade`. -/
inductive ExitReason where
  | SIGNAL
  | STOP_LOSS
  | TARGET
  | TRAILING_STOP
  | TIME_EXIT
deriving DecidableEq

/-- `interface BacktestTrade`. -/
structure BacktestTrade where
  entryTime : ℤ
  exitTime : ℤ
  type : TradeType
  entryPrice : ℚ
  exitPrice : ℚ
  quantity : ℤ
  pnl : ℚ
  pnlPercent : ℚ
  exitReason : ExitReason
deriving DecidableEq

-- ------------------------------------------------------------------
-- Technical indicators
-- ------------------------------------------------------------------

/-- `calculateSMA`: `NaN` before index `period - 1`, else the mean of the
trailing `period` values. -/
def calculateSMA (data : List ℚ) (period : ℕ) : List (Option ℚ) :=
  (List.range data.length).map fun i =>
    if i + 1 < period then none
    else some (((data.drop (i + 1 - period)).take period).sum / period)

/-- Value of `calculateEMA` at one index, by the source's recurrence.
`i + 1 < p` is `i < p - 1` over the integers and `i + 1 = p` is
`i = p - 1`, matching the JS comparisons. -/
def emaIdx (d : List (Option ℚ)) (p : ℕ) : ℕ → Option ℚ
  | 0 => d.getD 0 none
  | i + 1 =>
    if i + 2 < p then none
    else if i + 2 = p then (oSum (d.take p)).map (· / p)
    else oAdd (oMul (oSub (d.getD (i + 1) none) (emaIdx d p i)) (some (2 / (p + 1)))) (emaIdx d p i)

/-- `calculateEMA`.  The input may itself contain `NaN` entries (the MACD
signal line is an EMA of a partially-`NaN` series), hence `Option ℚ` in. -/
def calculateEMA (d : List (Option ℚ)) (p : ℕ) : List (Option ℚ) :=
  (List.range d.length).map (emaIdx d p)

/-- The `changes` array of `calculateRSI`: deltas of consecutive values. -/
def rsiChanges (data : List ℚ) : List ℚ :=
  List.zipWith (fun a b => b - a) data data.tail

/-- `changes.slice(i - period, i)` of `calculateRSI`. -/
def rsiWindow (data : List ℚ) (period i : ℕ) : List ℚ :=
  ((rsiChanges data).drop (i - period)).take period

/-- The `avgGain` value of `calculateRSI` at index `i`. -/
def avgGainAt (data : List ℚ) (period i : ℕ) : ℚ :=
  let gains := (rsiWindow data period i).filter (fun c => decide (0 < c))
  if gains = [] then 0 else gains.sum / period

/-- The `avgLoss` value of `calculateRSI` at index `i`. -/
def avgLossAt (data : List ℚ) (period i : ℕ) : ℚ :=
  let losses := ((rsiWindow data period i).filter (fun c => decide (c < 0))).map (fun c => |c|)
  if losses = [] then 0 else losses.sum / period

/-- Value of `calculateRSI` at one index. -/
def rsiIdx (data : List ℚ) (period i : ℕ) : Option ℚ :=
  if i < period then none
  else if avgLossAt data period i = 0 then some 100
  else some (100 - 100 / (1 + avgGainAt data period i / avgLossAt data period i))

/-- `calculateRSI` (simple rolling averages, not Wilder-smoothed). -/
def calculateRSI (data : List ℚ) (period : ℕ) : List (Option ℚ) :=
  (List.range data.length).map (rsiIdx data period)

/-- Return type of `calculateMACD`. -/
structure MACDResult where
  macd : List (Option ℚ)
  signal : List (Option ℚ)
  histogram : List (Option ℚ)

/-- `calculateMACD`: macd = EMA12 - EMA26 pointwise, signal = EMA9 of the
macd series, histogram = macd - signal pointwise. -/
def calculateMACD (data : List ℚ) : MACDResult :=
  let ema12 := calculateEMA (data.map some) 12
  let ema26 := calculateEMA (data.map some) 26
  let macd := List.zipWith oSub ema12 ema26
  let signal := calculateEMA macd 9
  let histogram := List.zipWith oSub macd signal
  ⟨macd, signal, histogram⟩

/-- The macd line as `calculateMACD` builds it. -/
def macdLine (data : List ℚ) : List (Option ℚ) :=
  List.zipWith oSub (calculateEMA (data.map some) 12) (calculateEMA (data.map some) 26)

/-- Return type of `calculateBollingerBands`.  The upper/lower bands contain
`Math.sqrt` and therefore live in `ℝ`; the middle band is the SMA series. -/
structure BollingerBands where
  upper : List (Option ℝ)
  middle : List (Option ℚ)
  lower : List (Option ℝ)

/-- `calculateBollingerBands` (population standard deviation over the
trailing window). -/
noncomputable def calculateBollingerBands (data : List ℚ) (period : ℕ) (stdDev : ℚ) :
    BollingerBands :=
  let middle := calculateSMA data period
  let band : Bool → List (Option ℝ) := fun isUpper =>
    (List.range data.length).map fun i =>
      if i + 1 < period then none
      else
        match middle.getD i none with
        | none => none
        | some mean =>
          let slice := (data.drop (i + 1 - period)).take period
          let variance := ((slice.map (fun val => (val - mean) ^ 2)).sum : ℚ) / (period : ℚ)
          some (if isUpper then (mean : ℝ) + (stdDev : ℝ) * Real.sqrt (variance : ℝ)
                else (mean : ℝ) - (stdDev : ℝ) * Real.sqrt (variance : ℝ))
  ⟨band true, middle, band false⟩

/-- The true-range series of `calculateATR`: first bar uses `high - low`,
later bars `max (high - low) (max |high - prevClose| |low - prevClose|)`. -/
def trueRange (data : List OHLCV) : List ℚ :=
  (List.range data.length).map fun i =>
    let b := data.getD i default
    match i with
    | 0 => b.high - b.low
    | j + 1 =>
      let prevClose := (data.getD j default).close
      max (b.high - b.low) (max |b.high - prevClose| |b.low - prevClose|)

/-- `calculateATR`: EMA of the true-range series. -/
def calculateATR (data : List OHLCV) (period : ℕ) : List (Option ℚ) :=
  calculateEMA ((trueRange data).map some) period

/-- The simplified on-balance-volume series of `calculateAllIndicators`:
cumulative signed volume seeded at 0. -/
def obvAt (closes volumes : List ℚ) : ℕ → ℚ
  | 0 => 0
  | i + 1 =>
    let prev := obvAt closes volumes i
    if closes.getD i 0 < closes.getD (i + 1) 0 then prev + volumes.getD (i + 1) 0
    else if closes.getD (i + 1) 0 < closes.getD i 0 then prev - volumes.getD (i + 1) 0
    else prev

/-- The simplified cumulative VWAP of `calculateAllIndicators` at index `i`:
running sum of typicalPrice * volume over running sum of volume.  A zero
cumulative volume yields the JS not-a-number marker (`0 / 0`), modelled as
`none`. -/
def vwapAt (data : List OHLCV) (i : ℕ) : Option ℚ :=
  let pre := data.take (i + 1)
  let cumulativeVolume := (pre.map (·.volume)).sum
  let cumulativeVWAP := (pre.map (fun b => (b.high + b.low + b.close) / 3 * b.volume)).sum
  if cumulativeVolume = 0 then none else some (cumulativeVWAP / cumulativeVolume)

/-- `interface IndicatorValues`: the per-bar indicator frame.  Fields that
can hold the JS `NaN` warm-up marker are `Option`-valued. -/
structure IndicatorValues where
  sma20 : Option ℚ
  sma50 : Option ℚ
  ema12 : Option ℚ
  ema26 : Option ℚ
  rsi : Option ℚ
  macd : Option ℚ
  macdSignal : Option ℚ
  macdHistogram : Option ℚ
  bbUpper : Option ℝ
  bbMiddle : Option ℚ
  bbLower : Option ℝ
  atr : Option ℚ
  adx : ℚ
  obv : ℚ
  vwap : Option ℚ

noncomputable instance : Inhabited IndicatorValues :=
  ⟨⟨none, none, none, none, none, none, none, none, none, none, none, none, 0, 0, none⟩⟩

/-- `calculateAllIndicators`: one `IndicatorValues` frame per input bar. -/
noncomputable def calculateAllIndicators (data : List OHLCV) : List IndicatorValues :=
  let closes := data.map (·.close)
  let volumes := data.map (·.volume)
  let sma20 := calculateSMA closes 20
  let sma50 := calculateSMA closes 50
  let ema12 := calculateEMA (closes.map some) 12
  let ema26 := calculateEMA (closes.map some) 26
  let rsi := calculateRSI closes 14
  let macdAll := calculateMACD closes
  let bb := calculateBollingerBands closes 20 2
  let atr := calculateATR data 14
  (List.range data.length).map fun i =>
    { sma20 := sma20.getD i none
      sma50 := sma50.getD i none
      ema12 := ema12.getD i none
      ema26 := ema26.getD i none
      rsi := rsi.getD i none
      macd := macdAll.macd.getD i none
      macdSignal := macdAll.signal.getD i none
      macdHistogram := macdAll.histogram.getD i none
      bbUpper := bb.upper.getD i none
      bbMiddle := bb.middle.getD i none
      bbLower := bb.lower.getD i none
      atr := atr.getD i none
      adx := 25
      obv := obvAt closes volumes i
      vwap := vwapAt data i }

-- ------------------------------------------------------------------
-- Backtest simulation loop
-- ------------------------------------------------------------------

/-- `interface StrategyConfig`.  `positionSize`, `stopLoss`, `takeProfit`
and `trailingStop` are percentages, as the source's comments state;
`maxHoldingPeriod` is a candle count.  The `?` optional fields are
`Option`-valued; the JS truthiness test on `maxHoldingPeriod` (which treats
the value `0` like `undefined`) is reproduced in the exit logic. -/
structure StrategyConfig where
  name : String
  initialCapital : ℚ
  positionSize : ℚ
  stopLoss : ℚ
  takeProfit : ℚ
  trailingStop : Option ℚ
  maxHoldingPeriod : Option ℕ
  entryCondition : List OHLCV → ℕ → IndicatorValues → Option TradeType
  exitCondition : Option (List OHLCV → ℕ → IndicatorValues → TradeType → Bool)

/-- The loop-local `position` record of `runBacktest`. -/
structure Position where
  type : TradeType
  entryPrice : ℚ
  entryTime : ℤ
  quantity : ℤ
  entryIndex : ℕ
deriving DecidableEq

/-- The mutable state of the `runBacktest` loop. -/
structure BTState where
  capital : ℚ
  position : Option Position
  trades : List BacktestTrade
  equityCurve : List (ℤ × ℚ)
  peakEquity : ℚ
  drawdownCurve : List (ℤ × ℚ)
deriving DecidableEq

/-- Initial loop state of `runBacktest`. -/
def btInit (s : StrategyConfig) : BTState :=
  ⟨s.initialCapital, none, [], [], s.initialCapital, []⟩

/-- Unrealized profit and loss of an open position at a closing price. -/
def unrealizedPnL (p : Position) (close : ℚ) : ℚ :=
  match p.type with
  | .LONG => (close - p.entryPrice) * p.quantity
  | .SHORT => (p.entryPrice - close) * p.quantity

/-- The `currentEquity` of a bar: capital plus unrealized P&L of any open
position. -/
def barEquity (st : BTState) (close : ℚ) : ℚ :=
  st.capital + match st.position with
  | none => 0
  | some p => unrealizedPnL p close

/-- The `pnlPercent` of an open position at a closing price (relative to
the entry price). -/
def pnlPercentOf (pos : Position) (close : ℚ) : ℚ :=
  match pos.type with
  | .LONG => (close - pos.entryPrice) / pos.entryPrice * 100
  | .SHORT => (pos.entryPrice - close) / pos.entryPrice * 100

/-- Realized P&L of a closing trade. -/
def realizedPnL (pos : Position) (close : ℚ) : ℚ :=
  match pos.type with
  | .LONG => (close - pos.entryPrice) * pos.quantity
  | .SHORT => (pos.entryPrice - close) * pos.quantity

/-- Exit condition (a): stop loss, `pnlPercent <= -strategy.stopLoss`. -/
def slHit (s : StrategyConfig) (pos : Position) (close : ℚ) : Bool :=
  pnlPercentOf pos close ≤ -s.stopLoss

/-- Exit condition (b): take profit, `pnlPercent >= strategy.takeProfit`. -/
def tpHit (s : StrategyConfig) (pos : Position) (close : ℚ) : Bool :=
  s.takeProfit ≤ pnlPercentOf pos close

/-- Exit condition (c): max holding period,
`strategy.maxHoldingPeriod && (i - position.entryIndex) >= strategy.maxHoldingPeriod`
(the JS truthiness test makes the value `0` disable the condition). -/
def timeHit (s : StrategyConfig) (pos : Position) (i : ℕ) : Bool :=
  match s.maxHoldingPeriod with
  | none => false
  | some m => !(m == 0) && m ≤ i - pos.entryIndex

/-- Exit condition (d): the strategy's custom exit decision. -/
def sigHit (s : StrategyConfig) (data : List OHLCV) (i : ℕ) (ind : IndicatorValues)
    (pos : Position) : Bool :=
  match s.exitCondition with
  | none => false
  | some f => f data i ind pos.type

/-- The sequence of `shouldExit` / `exitReason` mutations of the exit block
of `runBacktest`: each later satisfied condition overwrites the pair. -/
def exitDecision (s : StrategyConfig) (data : List OHLCV) (i : ℕ) (ind : IndicatorValues)
    (pos : Position) (close : ℚ) : Bool × ExitReason :=
  let r1 := if slHit s pos close then (true, ExitReason.STOP_LOSS)
            else (false, ExitReason.SIGNAL)
  let r2 := if tpHit s pos close then (true, ExitReason.TARGET) else r1
  let r3 := if timeHit s pos i then (true, ExitReason.TIME_EXIT) else r2
  if sigHit s data i ind pos then (true, ExitReason.SIGNAL) else r3

/-- The per-bar bookkeeping of the loop head of `runBacktest`: push the
equity point, raise the running peak, push the drawdown point.  A zero peak
would make the JS drawdown `NaN`; Lean then yields `0`, a divergence only
reachable with a non-positive initial capital and observable in no verified
property (the drawdown consumers compare with `> 0`). -/
def markBar (st : BTState) (ts : ℤ) (close : ℚ) : BTState :=
  let e := barEquity st close
  let peak := max st.peakEquity e
  let dd := (peak - e) / peak * 100
  { st with
    equityCurve := st.equityCurve ++ [(ts, e)]
    peakEquity := peak
    drawdownCurve := st.drawdownCurve ++ [(ts, dd)] }

/-- One iteration of the `for (let i = 50; i < data.length; i++)` loop of
`runBacktest`: push the equity and drawdown points, then either check entry
(flat) or the four exit conditions (in position). -/
noncomputable def stepBar (s : StrategyConfig) (data : List OHLCV)
    (indicators : List IndicatorValues) (st : BTState) (i : ℕ) : BTState :=
  let bar := data.getD i default
  let ind := indicators.getD i default
  let st1 : BTState := markBar st bar.timestamp bar.close
  match st.position with
  | none =>
    match s.entryCondition data i ind with
    | none => st1
    | some ty =>
      let positionValue := st.capital * (s.positionSize / 100)
      let quantity : ℤ := ⌊positionValue / bar.close⌋
      if 0 < quantity then
        { st1 with position := some ⟨ty, bar.close, bar.timestamp, quantity, i⟩ }
      else st1
  | some pos =>
    let ed := exitDecision s data i ind pos bar.close
    if ed.1 then
      let pnl := realizedPnL pos bar.close
      { st1 with
        trades := st1.trades ++
          [⟨pos.entryTime, bar.timestamp, pos.type, pos.entryPrice, bar.close,
            pos.quantity, pnl, pnlPercentOf pos bar.close, ed.2⟩]
        capital := st1.capital + pnl
        position := none }
    else st1

/-- The bar indices the loop visits: `50, 51, ..., data.length - 1`. -/
def btBars (n : ℕ) : List ℕ := List.range' 50 (n - 50)

/-- The loop state after the first `j` visited bars. -/
noncomputable def btStateAt (data : List OHLCV) (s : StrategyConfig) (j : ℕ) : BTState :=
  ((btBars data.length).take j).foldl (stepBar s data (calculateAllIndicators data)) (btInit s)

/-- The loop state when the loop has ended. -/
noncomputable def btFinal (data : List OHLCV) (s : StrategyConfig) : BTState :=
  (btBars data.length).foldl (stepBar s data (calculateAllIndicators data)) (btInit s)

/-- JS `Math.max(...values)` over a spread list: `none` models the
`-Infinity` result of an empty spread. -/
def jsMaxList (l : List ℚ) : Option ℚ :=
  l.foldl (fun m x => match m with | none => some x | some v => some (max v x)) none

/-- Maximum of a non-empty list, as `Math.max(...)` applied under a
non-emptiness guard. -/
def qListMax (l : List ℚ) : ℚ := l.foldl max (l.headD 0)

/-- Minimum of a non-empty list, as `Math.min(...)` applied under a
non-emptiness guard. -/
def qListMin (l : List ℚ) : ℚ := l.foldl min (l.headD 0)

/-- `interface BacktestResult`.  `profitFactor`: `none` models the `+Infinity`
of a zero gross loss with positive gross profit.  `maxDrawdownPercent` /
`maxDrawdown`: `none` models the `-Infinity` of `Math.max()` over an empty
drawdown curve.  `sharpeRatio` and `sortinoRatio` contain square roots and
live in `ℝ`.  The `monthlyReturns` grouping is omitted: it keys trades by the
local-time calendar month of `Date#getFullYear`/`getMonth`, a time-zone
dependent computation outside this embedding and touched by no verified
property. -/
structure BacktestResult where
  totalTrades : ℕ
  winningTrades : ℕ
  losingTrades : ℕ
  winRate : ℚ
  totalPnL : ℚ
  totalPnLPercent : ℚ
  avgWin : ℚ
  avgLoss : ℚ
  largestWin : ℚ
  largestLoss : ℚ
  profitFactor : Option ℚ
  sharpeRatio : ℝ
  sortinoRatio : ℝ
  maxDrawdown : Option ℚ
  maxDrawdownPercent : Option ℚ
  calmarRatio : ℚ
  avgHoldingPeriod : ℚ
  trades : List BacktestTrade
  equityCurve : List (ℤ × ℚ)
  drawdownCurve : List (ℤ × ℚ)

/-- `runBacktest`: run the simulation loop, then reduce the recorded trades
and curves to the summary statistics.  Divisions the source leaves unguarded
(`stdReturn` and `downsideDeviation` with an empty return list,
`totalPnLPercent` with zero initial capital, the drawdown with a zero peak)
produce JS `NaN`; this embedding's total division returns `0` there, and
every consumer of such a value in the source compares it with `> 0`, which
fails for `NaN` exactly as it fails for `0`, so every field of the returned
record agrees with the source. -/
noncomputable def runBacktest (data : List OHLCV) (s : StrategyConfig) : BacktestResult :=
  let fin := btFinal data s
  let trades := fin.trades
  let winningTrades := trades.filter (fun t => decide (0 < t.pnl))
  let losingTrades := trades.filter (fun t => decide (t.pnl ≤ 0))
  let totalPnL := (trades.map (·.pnl)).sum
  let totalPnLPercent := (fin.capital - s.initialCapital) / s.initialCapital * 100
  let avgWin := if 0 < winningTrades.length
    then (winningTrades.map (·.pnl)).sum / winningTrades.length else 0
  let avgLoss := if 0 < losingTrades.length
    then (losingTrades.map (·.pnl)).sum / losingTrades.length else 0
  let grossProfit := (winningTrades.map (·.pnl)).sum
  let grossLoss := |(losingTrades.map (·.pnl)).sum|
  let profitFactor : Option ℚ :=
    if 0 < grossLoss then some (grossProfit / grossLoss)
    else if 0 < grossProfit then none
    else some 0
  let returns := trades.map (·.pnlPercent)
  let avgReturn := if 0 < returns.length then returns.sum / returns.length else 0
  let stdReturn : ℝ :=
    Real.sqrt (((returns.map (fun r => (r - avgReturn) ^ 2)).sum / (returns.length : ℚ) : ℚ))
  let sharpeRatio : ℝ :=
    if 0 < stdReturn then (avgReturn : ℝ) / stdReturn * Real.sqrt 252 else 0
  let negativeReturns := returns.filter (fun r => decide (r < 0))
  let downsideDeviation : ℝ :=
    Real.sqrt (((negativeReturns.map (fun r => r ^ 2)).sum / (negativeReturns.length : ℚ) : ℚ))
  let sortinoRatio : ℝ :=
    if 0 < downsideDeviation then (avgReturn : ℝ) / downsideDeviation * Real.sqrt 252 else 0
  let maxDrawdownPct := jsMaxList (fin.drawdownCurve.map Prod.snd)
  let annualizedReturn := totalPnLPercent * (252 / (data.length : ℚ))
  let calmarRatio : ℚ :=
    match maxDrawdownPct with
    | none => 0
    | some m => if 0 < m then annualizedReturn / m else 0
  let avgHoldingPeriod : ℚ :=
    if 0 < trades.length
    then ((trades.map (fun t => ((t.exitTime - t.entryTime : ℤ) : ℚ))).sum / trades.length)
      / (1000 * 60 * 60 * 24)
    else 0
  { totalTrades := trades.length
    winningTrades := winningTrades.length
    losingTrades := losingTrades.length
    winRate := if 0 < trades.length
      then (winningTrades.length : ℚ) / (trades.length : ℚ) * 100 else 0
    totalPnL := totalPnL
    totalPnLPercent := totalPnLPercent
    avgWin := avgWin
    avgLoss := avgLoss
    largestWin := if 0 < winningTrades.length then qListMax (winningTrades.map (·.pnl)) else 0
    largestLoss := if 0 < losingTrades.length then qListMin (losingTrades.map (·.pnl)) else 0
    profitFactor := profitFactor
    sharpeRatio := sharpeRatio
    sortinoRatio := sortinoRatio
    maxDrawdown := maxDrawdownPct.map (fun m => m / 100 * fin.peakEquity)
    maxDrawdownPercent := maxDrawdownPct
    calmarRatio := calmarRatio
    avgHoldingPeriod := avgHoldingPeriod
    trades := trades
    equityCurve := fin.equityCurve
    drawdownCurve := fin.drawdownCurve }

-- ------------------------------------------------------------------
-- Concrete fixtures for counterexamples and witnesses
-- ------------------------------------------------------------------

/-- A flat bar: every price equal, zero volume, timestamp 0. -/
def flatBar (c : ℚ) : OHLCV := ⟨0, c, c, c, c, 0⟩

/-- Always-enter-long strategy: capital 1000, position size 100 %, stop loss
5 %, take profit 100 %, max holding period 1 bar, no custom exit. -/
def fixtureS1 : StrategyConfig :=
  ⟨"", 1000, 100, 5, 100, none, some 1, fun _ _ _ => some .LONG, none⟩

/-- 52 bars: 51 at price 100, then one at price 90 (a 10 % drop). -/
def fixtureData1 : List OHLCV := List.replicate 51 (flatBar 100) ++ [flatBar 90]

/-- A config with zero initial capital and no entry signal. -/
def fixtureS2 : StrategyConfig :=
  ⟨"", 0, 10, 2, 4, none, none, fun _ _ _ => none, none⟩

/-- 51 flat bars at price 100: exactly one loop iteration. -/
def fixtureData2 : List OHLCV := List.replicate 51 (flatBar 100)

/-- Always-enter-long strategy whose `positionSize` field is the fraction
`1/2` (inside `(0, 1]`), with an always-true custom exit and stop/target
levels that never fire. -/
def fixtureS3 : StrategyConfig :=
  ⟨"", 1000, 1/2, 1000000, 1000000, none, none, fun _ _ _ => some .LONG,
    some (fun _ _ _ _ => true)⟩

/-- 52 flat bars at price 1. -/
def fixtureData3 : List OHLCV := List.replicate 52 (flatBar 1)

/-- Always-enter-long strategy with no exit condition that can fire on a
flat series: the opened position stays open to the end. -/
def fixtureS4 : StrategyConfig :=
  ⟨"", 1000, 100, 5, 100, none, none, fun _ _ _ => some .LONG, none⟩

-- ------------------------------------------------------------------
-- Helper lemmas
-- ------------------------------------------------------------------

lemma oAdd_none_right (a : Option ℚ) : oAdd a none = none := by
  cases a <;> rfl

lemma oSum_map_some_aux (l : List ℚ) (a : ℚ) :
    (l.map some).foldl oAdd (some a) = some (a + l.sum) := by
  induction l generalizing a with
  | nil => simp
  | cons x xs ih =>
    simp only [List.map_cons, List.foldl_cons, oAdd, ih, List.sum_cons]
    ring_nf

/-- The JS sum of a `NaN`-free list is its ordinary sum. -/
lemma oSum_map_some (l : List ℚ) : oSum (l.map some) = some l.sum := by
  simpa using oSum_map_some_aux l 0

lemma foldl_oAdd_none (l : List (Option ℚ)) : l.foldl oAdd none = none := by
  induction l with
  | nil => rfl
  | cons y ys ihy => simpa [oAdd] using ihy

lemma foldl_oAdd_eq_none_of_mem (l : List (Option ℚ)) (a : Option ℚ) (h : none ∈ l) :
    l.foldl oAdd a = none := by
  induction l generalizing a with
  | nil => cases h
  | cons x xs ih =>
    rcases List.mem_cons.mp h with h1 | h1
    · rw [← h1, List.foldl_cons, oAdd_none_right, foldl_oAdd_none]
    · exact List.foldl_cons _ _ ▸ ih _ h1

/-- The JS sum of a list containing `NaN` is `NaN`. -/
lemma oSum_eq_none_of_mem (l : List (Option ℚ)) (h : none ∈ l) : oSum l = none :=
  foldl_oAdd_eq_none_of_mem l _ h

lemma calculateEMA_length (d : List (Option ℚ)) (p : ℕ) :
    (calculateEMA d p).length = d.length := by
  simp [calculateEMA]

lemma calculateEMA_getElem (d : List (Option ℚ)) (p i : ℕ) (h : i < d.length) :
    (calculateEMA d p)[i]? = some (emaIdx d p i) := by
  simp [calculateEMA, List.getElem?_map, List.getElem?_range h]

-- ------------------------------------------------------------------
-- C6: shape of calculateEMA
-- ------------------------------------------------------------------

/-- C6: for every period `p ≥ 1` and input series `x` of length `n`,
`calculateEMA x p` has length `n`; index `0` holds the raw value `x[0]`;
indices `1 .. p-2` are undefined; index `p-1` (when `p-1 ≥ 1` and
`p-1 < n`) holds the SMA of the first `p` values; every later index `i`
satisfies `ema[i] = (x[i] - ema[i-1]) * (2/(p+1)) + ema[i-1]`; and when `p`
exceeds `n` every index other than `0` is undefined (no exception). -/
theorem calculateEMA_spec (x : List ℚ) (p : ℕ) (hp : 1 ≤ p) :
    (calculateEMA (x.map some) p).length = x.length ∧
    (0 < x.length → (calculateEMA (x.map some) p)[0]? = some (some (x.getD 0 0))) ∧
    (∀ i, 1 ≤ i → i + 1 < p → i < x.length →
      (calculateEMA (x.map some) p)[i]? = some none) ∧
    (2 ≤ p → p - 1 < x.length →
      (calculateEMA (x.map some) p)[p - 1]? = some (some ((x.take p).sum / p))) ∧
    (∀ i, 1 ≤ i → p ≤ i → i < x.length → ∀ v,
      (calculateEMA (x.map some) p)[i - 1]? = some (some v) →
      (calculateEMA (x.map some) p)[i]? =
        some (some ((x.getD i 0 - v) * (2 / (p + 1)) + v))) ∧
    (x.length < p → ∀ i, 1 ≤ i → i < x.length →
      (calculateEMA (x.map some) p)[i]? = some none) := by
  have hlen : (x.map some).length = x.length := by simp
  have hwarm : ∀ i, 1 ≤ i → i + 1 < p → i < x.length →
      (calculateEMA (x.map some) p)[i]? = some none := by
    intro i h1 h2 h3
    rw [calculateEMA_getElem _ _ _ (by simpa [hlen] using h3)]
    obtain ⟨j, rfl⟩ : ∃ j, i = j + 1 := ⟨i - 1, by omega⟩
    simp only [emaIdx]
    rw [if_pos (by omega)]
  refine ⟨by simpa using calculateEMA_length (x.map some) p, ?_, hwarm, ?_, ?_, ?_⟩
  · intro h0
    rw [calculateEMA_getElem _ _ _ (by simpa [hlen] using h0)]
    simp only [emaIdx]
    rw [List.getD_eq_getElem?_getD, List.getElem?_map,
      List.getElem?_eq_getElem h0, List.getD_eq_getElem?_getD,
      List.getElem?_eq_getElem h0]
    rfl
  · intro h2 hlt
    rw [calculateEMA_getElem _ _ _ (by simpa [hlen] using hlt)]
    obtain ⟨q, rfl⟩ : ∃ q, p = q + 2 := ⟨p - 2, by omega⟩
    have hq1 : q + 2 - 1 = q + 1 := by omega
    rw [hq1]
    simp only [emaIdx]
    rw [if_neg (by omega)]
    simp only [eq_self_iff_true, if_true, ← List.map_take, oSum_map_some]
    rfl
  · intro i h1 hpi h3 v hv
    rw [calculateEMA_getElem _ _ _ (by simpa [hlen] using h3)]
    obtain ⟨j, rfl⟩ : ∃ j, i = j + 1 := ⟨i - 1, by omega⟩
    have hj : j + 1 - 1 = j := by omega
    rw [hj, calculateEMA_getElem _ _ _ (by simp; omega)] at hv
    have hvj : emaIdx (x.map some) p j = some v := by
      exact Option.some_injective _ hv
    have hxj : (x.map some).getD (j + 1) none = some (x.getD (j + 1) 0) := by
      have hx : (j + 1) < x.length := h3
      rw [List.getD_eq_getElem?_getD, List.getElem?_map,
        List.getElem?_eq_getElem hx, List.getD_eq_getElem?_getD,
        List.getElem?_eq_getElem hx]
      rfl
    simp only [emaIdx]
    rw [if_neg (by omega), if_neg (by omega), hxj, hvj]
    rfl
  · intro hnp i h1 h3
    exact hwarm i h1 (by omega) h3

/-- Witness for C6 at `x = [1, 2, 3, 4]`, `p = 3`: the recurrence at index 3
produces `(4 - 2) * (2/4) + 2 = 3` from the SMA seed `2` at index 2. -/
theorem calculateEMA_spec_witness :
    (1 ≤ 3 ∧ (calculateEMA ([1, 2, 3, 4].map some) 3)[2]? = some (some 2)) ∧
      (calculateEMA ([(1 : ℚ), 2, 3, 4].map some) 3)[3]? =
        some (some (([1, 2, 3, 4].getD 3 0 - 2) * (2 / (3 + 1)) + 2)) :=
  ⟨⟨by norm_num, by decide⟩,
    (calculateEMA_spec [1, 2, 3, 4] 3 (by norm_num)).2.2.2.2.1 3 (by norm_num)
      (by norm_num) (by norm_num) 2 (by decide)⟩

-- ------------------------------------------------------------------
-- C5: range of calculateRSI
-- ------------------------------------------------------------------

lemma calculateRSI_getElem (data : List ℚ) (period i : ℕ) (h : i < data.length) :
    (calculateRSI data period)[i]? = some (rsiIdx data period i) := by
  simp [calculateRSI, List.getElem?_map, List.getElem?_range h]

lemma avgGainAt_nonneg (data : List ℚ) (period i : ℕ) : 0 ≤ avgGainAt data period i := by
  unfold avgGainAt
  simp only []
  split
  · exact le_refl 0
  · refine div_nonneg (List.sum_nonneg ?_) (Nat.cast_nonneg period)
    intro x hx
    have := (List.mem_filter.mp hx).2
    have : 0 < x := of_decide_eq_true this
    exact le_of_lt this

lemma avgLossAt_nonneg (data : List ℚ) (period i : ℕ) : 0 ≤ avgLossAt data period i := by
  unfold avgLossAt
  simp only []
  split
  · exact le_refl 0
  · refine div_nonneg (List.sum_nonneg ?_) (Nat.cast_nonneg period)
    intro x hx
    obtain ⟨c, _, rfl⟩ := List.mem_map.mp hx
    exact abs_nonneg c

lemma rsiChanges_replicate (n : ℕ) (c : ℚ) :
    rsiChanges (List.replicate n c) = List.replicate (n - 1) 0 := by
  induction n with
  | zero => rfl
  | succ m ih =>
    cases m with
    | zero => rfl
    | succ k =>
      have hrep : List.replicate (k + 2) c = c :: c :: List.replicate k c := rfl
      unfold rsiChanges at ih ⊢
      rw [hrep]
      simp only [List.tail_cons, List.zipWith_cons_cons] at ih ⊢
      rw [show List.replicate (k + 1) c = c :: List.replicate k c from rfl] at ih
      simp only [List.tail_cons] at ih
      rw [ih]
      simp only [Nat.add_sub_cancel, sub_self]
      rfl

/-- C5: every defined value produced by `calculateRSI` lies in `[0, 100]`;
a constant-price series yields only the value `100`; and a zero trailing
average loss forces the value `100`. -/
theorem calculateRSI_spec (data : List ℚ) (period : ℕ) :
    (∀ (i : ℕ) (v : ℚ), (calculateRSI data period)[i]? = some (some v) → 0 ≤ v ∧ v ≤ 100) ∧
    (∀ (c : ℚ) (n i : ℕ) (v : ℚ),
      (calculateRSI (List.replicate n c) period)[i]? = some (some v) → v = 100) ∧
    (∀ i, period ≤ i → i < data.length → avgLossAt data period i = 0 →
      (calculateRSI data period)[i]? = some (some 100)) := by
  have key : ∀ (d : List ℚ) (i : ℕ) (v : ℚ),
      (calculateRSI d period)[i]? = some (some v) →
      rsiIdx d period i = some v ∧ i < d.length := by
    intro d i v hv
    have hi : i < d.length := by
      by_contra hbad
      rw [List.getElem?_eq_none (by simpa [calculateRSI] using Nat.le_of_not_lt hbad)] at hv
      cases hv
    rw [calculateRSI_getElem d period i hi] at hv
    exact ⟨Option.some_injective _ hv, hi⟩
  refine ⟨?_, ?_, ?_⟩
  · intro i v hv
    obtain ⟨hv, hi⟩ := key data i v hv
    unfold rsiIdx at hv
    by_cases hwarm : i < period
    · rw [if_pos hwarm] at hv
      cases hv
    rw [if_neg hwarm] at hv
    by_cases hl : avgLossAt data period i = 0
    · rw [if_pos hl] at hv
      have := Option.some_injective _ hv
      constructor <;> simp [← this]
    · rw [if_neg hl] at hv
      have hveq := Option.some_injective _ hv
      have hlpos : 0 < avgLossAt data period i :=
        lt_of_le_of_ne (avgLossAt_nonneg data period i) (Ne.symm hl)
      have hrs : 0 ≤ avgGainAt data period i / avgLossAt data period i :=
        div_nonneg (avgGainAt_nonneg data period i) (le_of_lt hlpos)
      have hfrac1 : 0 < 100 / (1 + avgGainAt data period i / avgLossAt data period i) :=
        div_pos (by norm_num) (by linarith)
      have hfrac2 : 100 / (1 + avgGainAt data period i / avgLossAt data period i) ≤ 100 := by
        apply div_le_self (by norm_num) (by linarith)
      constructor <;> [linarith [hveq.symm.le, hveq.symm.ge]; linarith [hveq.symm.le]]
  · intro c n i v hv
    obtain ⟨hv, hi⟩ := key (List.replicate n c) i v hv
    have hzero : ∀ x ∈ rsiWindow (List.replicate n c) period i, x = 0 := by
      intro x hx
      unfold rsiWindow at hx
      rw [rsiChanges_replicate] at hx
      exact List.eq_of_mem_replicate ((List.drop_subset _ _) ((List.take_subset _ _) hx))
    have hloss : avgLossAt (List.replicate n c) period i = 0 := by
      unfold avgLossAt
      have : (rsiWindow (List.replicate n c) period i).filter (fun c => decide (c < 0)) = [] := by
        rw [List.filter_eq_nil]
        intro a ha
        rw [hzero a ha]
        decide
      rw [this]
      simp
    unfold rsiIdx at hv
    by_cases hwarm : i < period
    · rw [if_pos hwarm] at hv
      cases hv
    · rw [if_neg hwarm, if_pos hloss] at hv
      exact (Option.some_injective _ hv).symm
  · intro i hpi hi hloss
    rw [calculateRSI_getElem data period i hi]
    unfold rsiIdx
    rw [if_neg (Nat.not_lt.mpr hpi), if_pos hloss]

-- ------------------------------------------------------------------
-- C9: the MACD signal line never becomes defined
-- ------------------------------------------------------------------

lemma calculateMACD_eq (data : List ℚ) :
    calculateMACD data =
      ⟨macdLine data, calculateEMA (macdLine data) 9,
        List.zipWith oSub (macdLine data) (calculateEMA (macdLine data) 9)⟩ := rfl

lemma macdLine_length (data : List ℚ) : (macdLine data).length = data.length := by
  simp [macdLine, calculateEMA]

lemma macdLine_getElem (data : List ℚ) (i : ℕ) (hi : i < data.length) :
    (macdLine data)[i]? =
      some (oSub (emaIdx (data.map some) 12 i) (emaIdx (data.map some) 26 i)) := by
  have h12 := calculateEMA_getElem (data.map some) 12 i (by simpa using hi)
  have h26 := calculateEMA_getElem (data.map some) 26 i (by simpa using hi)
  rw [macdLine, List.getElem?_zipWith, h12, h26]

lemma macdLine_one_none (data : List ℚ) (h2 : 2 ≤ data.length) :
    (macdLine data)[1]? = some none := by
  rw [macdLine_getElem data 1 (by omega)]
  have h12 : emaIdx (data.map some) 12 1 = none := by
    show emaIdx (data.map some) 12 (0 + 1) = none
    simp only [emaIdx]
    rw [if_pos (by omega)]
  rw [h12]
  rfl

lemma signal_emaIdx_none (data : List ℚ) (h2 : 2 ≤ data.length) :
    ∀ i, 8 ≤ i → emaIdx (macdLine data) 9 i = none := by
  intro i hi
  induction i, hi using Nat.le_induction with
  | base =>
    show emaIdx (macdLine data) 9 (7 + 1) = none
    simp only [emaIdx]
    rw [if_neg (by omega)]
    simp only [eq_self_iff_true, if_true]
    have hmem : none ∈ (macdLine data).take 9 := by
      have h1 : ((macdLine data).take 9)[1]? = some none := by
        rw [List.getElem?_take_of_lt (by omega), macdLine_one_none data h2]
      exact List.getElem?_mem h1
    rw [oSum_eq_none_of_mem _ hmem]
    rfl
  | succ k hk ih =>
    show emaIdx (macdLine data) 9 (k + 1) = none
    simp only [emaIdx]
    rw [if_neg (by omega), if_neg (by omega), ih, oAdd_none_right]

/-- C9: for an input series of length at least 2, the signal line of
`calculateMACD` is defined only at index 0 (with value 0) and undefined at
every index `1 .. n-1`, because its seeding SMA averages undefined macd
values and the resulting undefined value then propagates through the EMA
recurrence; the histogram is likewise undefined at every index `1 .. n-1`. -/
theorem calculateMACD_signal_spec (data : List ℚ) (h2 : 2 ≤ data.length) :
    (calculateMACD data).signal[0]? = some (some 0) ∧
    (∀ i, 1 ≤ i → i < data.length → (calculateMACD data).signal[i]? = some none) ∧
    (∀ i, 1 ≤ i → i < data.length → (calculateMACD data).histogram[i]? = some none) := by
  have hlen : (macdLine data).length = data.length := macdLine_length data
  have hsig : ∀ i, 1 ≤ i → i < data.length →
      (calculateEMA (macdLine data) 9)[i]? = some none := by
    intro i h1 hi
    rw [calculateEMA_getElem _ _ _ (by omega)]
    by_cases h8 : 8 ≤ i
    · rw [signal_emaIdx_none data h2 i h8]
    · obtain ⟨j, rfl⟩ : ∃ j, i = j + 1 := ⟨i - 1, by omega⟩
      simp only [emaIdx]
      rw [if_pos (by omega)]
  refine ⟨?_, fun i h1 hi => by rw [calculateMACD_eq]; exact hsig i h1 hi, ?_⟩
  · rw [calculateMACD_eq]
    rw [calculateEMA_getElem _ _ _ (by omega)]
    show some ((macdLine data).getD 0 none) = some (some 0)
    have h0 : (macdLine data)[0]? =
        some (oSub (emaIdx (data.map some) 12 0) (emaIdx (data.map some) 26 0)) :=
      macdLine_getElem data 0 (by omega)
    have hd0 : (data.map some).getD 0 none = some (data.getD 0 0) := by
      have hx : 0 < data.length := by omega
      rw [List.getD_eq_getElem?_getD, List.getElem?_map,
        List.getElem?_eq_getElem hx, List.getD_eq_getElem?_getD,
        List.getElem?_eq_getElem hx]
      rfl
    rw [List.getD_eq_getElem?_getD, h0]
    show some (oSub (emaIdx (data.map some) 12 0) (emaIdx (data.map some) 26 0)) =
      some (some 0)
    simp only [emaIdx]
    rw [hd0]
    simp [oSub]
  · intro i h1 hi
    rw [calculateMACD_eq]
    show (List.zipWith oSub (macdLine data) (calculateEMA (macdLine data) 9))[i]? = some none
    rw [List.getElem?_zipWith, hsig i h1 hi]
    obtain ⟨m, hm⟩ : ∃ m, (macdLine data)[i]? = some m :=
      ⟨_, List.getElem?_eq_getElem (show i < (macdLine data).length by omega)⟩
    rw [hm]
    show some (oSub m none) = some none
    cases m <;> rfl

/-- Witness for C9 at `data = [1, 2]`: the signal is defined (as 0) at
index 0 and undefined at index 1, as is the histogram. -/
theorem calculateMACD_signal_spec_witness :
    (calculateMACD [(1 : ℚ), 2]).signal[0]? = some (some 0) ∧
      (calculateMACD [(1 : ℚ), 2]).signal[1]? = some none ∧
      (calculateMACD [(1 : ℚ), 2]).histogram[1]? = some none :=
  ⟨(calculateMACD_signal_spec [1, 2] (by norm_num)).1,
    (calculateMACD_signal_spec [1, 2] (by norm_num)).2.1 1 (by norm_num) (by norm_num),
    (calculateMACD_signal_spec [1, 2] (by norm_num)).2.2 1 (by norm_num) (by norm_num)⟩

-- ------------------------------------------------------------------
-- Step lemmas for the simulation loop
-- ------------------------------------------------------------------

lemma markBar_capital (st : BTState) (ts : ℤ) (c : ℚ) :
    (markBar st ts c).capital = st.capital := rfl

lemma markBar_position (st : BTState) (ts : ℤ) (c : ℚ) :
    (markBar st ts c).position = st.position := rfl

lemma markBar_trades (st : BTState) (ts : ℤ) (c : ℚ) :
    (markBar st ts c).trades = st.trades := rfl

lemma markBar_equityCurve (st : BTState) (ts : ℤ) (c : ℚ) :
    (markBar st ts c).equityCurve = st.equityCurve ++ [(ts, barEquity st c)] := rfl

lemma markBar_peakEquity (st : BTState) (ts : ℤ) (c : ℚ) :
    (markBar st ts c).peakEquity = max st.peakEquity (barEquity st c) := rfl

lemma markBar_drawdownCurve (st : BTState) (ts : ℤ) (c : ℚ) :
    (markBar st ts c).drawdownCurve = st.drawdownCurve ++
      [(ts, (max st.peakEquity (barEquity st c) - barEquity st c) /
        max st.peakEquity (barEquity st c) * 100)] := rfl

/-- When flat and the entry decision is silent, the step only marks the bar. -/
lemma stepBar_flat_none (s : StrategyConfig) (data : List OHLCV)
    (indicators : List IndicatorValues) (st : BTState) (i : ℕ)
    (h : st.position = none)
    (hsig : s.entryCondition data i (indicators.getD i default) = none) :
    stepBar s data indicators st i =
      markBar st (data.getD i default).timestamp (data.getD i default).close := by
  simp only [stepBar, h, hsig]

/-- When flat and the entry decision fires, the step opens a position of
`floor(capital * (positionSize / 100) / close)` shares when that quantity is
positive and otherwise stays flat. -/
lemma stepBar_flat_entry (s : StrategyConfig) (data : List OHLCV)
    (indicators : List IndicatorValues) (st : BTState) (i : ℕ) (ty : TradeType)
    (h : st.position = none)
    (hsig : s.entryCondition data i (indicators.getD i default) = some ty) :
    stepBar s data indicators st i =
      (if 0 < (⌊st.capital * (s.positionSize / 100) / (data.getD i default).close⌋ : ℤ) then
        { markBar st (data.getD i default).timestamp (data.getD i default).close with
          position := some ⟨ty, (data.getD i default).close, (data.getD i default).timestamp,
            ⌊st.capital * (s.positionSize / 100) / (data.getD i default).close⌋, i⟩ }
      else markBar st (data.getD i default).timestamp (data.getD i default).close) := by
  simp only [stepBar, h, hsig]

/-- When in a position, the step closes the trade exactly when the mutated
`shouldExit` flag ends `true`, recording the mutated `exitReason`. -/
lemma stepBar_in_position (s : StrategyConfig) (data : List OHLCV)
    (indicators : List IndicatorValues) (st : BTState) (i : ℕ) (pos : Position)
    (h : st.position = some pos) :
    stepBar s data indicators st i =
      (if (exitDecision s data i (indicators.getD i default) pos
            (data.getD i default).close).1 then
        { markBar st (data.getD i default).timestamp (data.getD i default).close with
          trades := st.trades ++
            [⟨pos.entryTime, (data.getD i default).timestamp, pos.type, pos.entryPrice,
              (data.getD i default).close, pos.quantity,
              realizedPnL pos (data.getD i default).close,
              pnlPercentOf pos (data.getD i default).close,
              (exitDecision s data i (indicators.getD i default) pos
                (data.getD i default).close).2⟩]
          capital := st.capital + realizedPnL pos (data.getD i default).close
          position := none }
      else markBar st (data.getD i default).timestamp (data.getD i default).close) := by
  simp only [stepBar, h]
  rfl

/-- The final `shouldExit` flag is the disjunction of the four conditions. -/
lemma exitDecision_fst (s : StrategyConfig) (data : List OHLCV) (i : ℕ)
    (ind : IndicatorValues) (pos : Position) (close : ℚ) :
    (exitDecision s data i ind pos close).1 =
      (slHit s pos close || tpHit s pos close || timeHit s pos i ||
        sigHit s data i ind pos) := by
  unfold exitDecision
  cases hsl : slHit s pos close <;> cases htp : tpHit s pos close <;>
    cases hti : timeHit s pos i <;> cases hsg : sigHit s data i ind pos <;> simp

/-- When some condition is satisfied, the recorded reason is that of the
LAST satisfied condition in source order (a) stop-loss, (b) take-profit,
(c) time exit, (d) strategy signal: each later `if` overwrites the reason. -/
lemma exitDecision_snd (s : StrategyConfig) (data : List OHLCV) (i : ℕ)
    (ind : IndicatorValues) (pos : Position) (close : ℚ)
    (h : (slHit s pos close || tpHit s pos close || timeHit s pos i ||
      sigHit s data i ind pos) = true) :
    (exitDecision s data i ind pos close).2 =
      (if sigHit s data i ind pos then ExitReason.SIGNAL
       else if timeHit s pos i then ExitReason.TIME_EXIT
       else if tpHit s pos close then ExitReason.TARGET
       else ExitReason.STOP_LOSS) := by
  unfold exitDecision
  cases hsl : slHit s pos close <;> cases htp : tpHit s pos close <;>
    cases hti : timeHit s pos i <;> cases hsg : sigHit s data i ind pos <;>
    simp_all

/-- The recorded exit reason is never the unreachable `TRAILING_STOP` tag. -/
lemma exitDecision_snd_ne_trailing (s : StrategyConfig) (data : List OHLCV) (i : ℕ)
    (ind : IndicatorValues) (pos : Position) (close : ℚ) :
    (exitDecision s data i ind pos close).2 ≠ ExitReason.TRAILING_STOP := by
  unfold exitDecision
  cases hsl : slHit s pos close <;> cases htp : tpHit s pos close <;>
    cases hti : timeHit s pos i <;> cases hsg : sigHit s data i ind pos <;> simp

-- ------------------------------------------------------------------
-- C1: exit-condition priority
-- ------------------------------------------------------------------

/-- C1 (counterexample): on `fixtureData1` both the stop-loss condition (a)
and the time-exit condition (c) are satisfied at the closing bar, yet the
recorded exit reason is `TIME_EXIT`, not that of the first satisfied
condition `STOP_LOSS`: the claim's priority order is refuted. -/
theorem exit_priority_counterexample :
    slHit fixtureS1 ⟨.LONG, 100, 0, 10, 50⟩ 90 = true ∧
    timeHit fixtureS1 ⟨.LONG, 100, 0, 10, 50⟩ 51 = true ∧
    (runBacktest fixtureData1 fixtureS1).trades.map (·.exitReason) =
      [ExitReason.TIME_EXIT] ∧
    ExitReason.TIME_EXIT ≠ ExitReason.STOP_LOSS := by
  refine ⟨by decide, by decide, ?_, by decide⟩
  show (btFinal fixtureData1 fixtureS1).trades.map (·.exitReason) = [ExitReason.TIME_EXIT]
  decide

/-- C1 (amended): whenever a position is open at bar `i`, the step records a
closed trade exactly when one of the four exit conditions (a) stop-loss,
(b) take-profit, (c) time exit, (d) strategy exit-decision is satisfied, and
the recorded `exitReason` is that of the LAST satisfied condition in this
order (each later `if` of the source overwrites the reason), not the first. -/
theorem exit_priority_last_wins (s : StrategyConfig) (data : List OHLCV)
    (indicators : List IndicatorValues) (st : BTState) (i : ℕ) (pos : Position)
    (h : st.position = some pos) :
    ((slHit s pos (data.getD i default).close || tpHit s pos (data.getD i default).close ||
        timeHit s pos i || sigHit s data i (indicators.getD i default) pos) = true →
      (stepBar s data indicators st i).trades = st.trades ++
        [⟨pos.entryTime, (data.getD i default).timestamp, pos.type, pos.entryPrice,
          (data.getD i default).close, pos.quantity,
          realizedPnL pos (data.getD i default).close,
          pnlPercentOf pos (data.getD i default).close,
          if sigHit s data i (indicators.getD i default) pos then ExitReason.SIGNAL
          else if timeHit s pos i then ExitReason.TIME_EXIT
          else if tpHit s pos (data.getD i default).close then ExitReason.TARGET
          else ExitReason.STOP_LOSS⟩] ∧
      (stepBar s data indicators st i).position = none ∧
      (stepBar s data indicators st i).capital =
        st.capital + realizedPnL pos (data.getD i default).close) ∧
    ((slHit s pos (data.getD i default).close || tpHit s pos (data.getD i default).close ||
        timeHit s pos i || sigHit s data i (indicators.getD i default) pos) = false →
      (stepBar s data indicators st i).trades = st.trades ∧
      (stepBar s data indicators st i).position = some pos ∧
      (stepBar s data indicators st i).capital = st.capital) := by
  rw [stepBar_in_position s data indicators st i pos h]
  constructor
  · intro hcond
    have hfst : (exitDecision s data i (indicators.getD i default) pos
        (data.getD i default).close).1 = true := by
      rw [exitDecision_fst]
      exact hcond
    rw [if_pos hfst]
    refine ⟨?_, rfl, rfl⟩
    rw [exitDecision_snd s data i (indicators.getD i default) pos
      (data.getD i default).close hcond]
  · intro hcond
    have hfst : (exitDecision s data i (indicators.getD i default) pos
        (data.getD i default).close).1 = false := by
      rw [exitDecision_fst]
      exact hcond
    rw [if_neg (by rw [hfst]; exact Bool.false_ne_true)]
    exact ⟨rfl, by rw [markBar_position, h], rfl⟩

/-- Witness for the amended C1: at the last bar of `fixtureData1` with the
open fixture position, the stop-loss and time-exit conditions hold and the
step records the trade with reason `TIME_EXIT` (the last satisfied). -/
theorem exit_priority_last_wins_witness :
    (⟨1000, some ⟨.LONG, 100, 0, 10, 50⟩, [], [(0, 1000)], 1000, [(0, 0)]⟩ :
        BTState).position = some ⟨.LONG, 100, 0, 10, 50⟩ ∧
    (slHit fixtureS1 ⟨.LONG, 100, 0, 10, 50⟩ (fixtureData1.getD 51 default).close ||
      tpHit fixtureS1 ⟨.LONG, 100, 0, 10, 50⟩ (fixtureData1.getD 51 default).close ||
      timeHit fixtureS1 ⟨.LONG, 100, 0, 10, 50⟩ 51 ||
      sigHit fixtureS1 fixtureData1 51
        ((calculateAllIndicators fixtureData1).getD 51 default) ⟨.LONG, 100, 0, 10, 50⟩) =
      true ∧
    (stepBar fixtureS1 fixtureData1 (calculateAllIndicators fixtureData1)
        ⟨1000, some ⟨.LONG, 100, 0, 10, 50⟩, [], [(0, 1000)], 1000, [(0, 0)]⟩ 51).trades =
      [] ++
        [⟨0, (fixtureData1.getD 51 default).timestamp, .LONG, 100,
          (fixtureData1.getD 51 default).close, 10,
          realizedPnL ⟨.LONG, 100, 0, 10, 50⟩ (fixtureData1.getD 51 default).close,
          pnlPercentOf ⟨.LONG, 100, 0, 10, 50⟩ (fixtureData1.getD 51 default).close,
          if sigHit fixtureS1 fixtureData1 51
              ((calculateAllIndicators fixtureData1).getD 51 default)
              ⟨.LONG, 100, 0, 10, 50⟩ then ExitReason.SIGNAL
          else if timeHit fixtureS1 ⟨.LONG, 100, 0, 10, 50⟩ 51 then ExitReason.TIME_EXIT
          else if tpHit fixtureS1 ⟨.LONG, 100, 0, 10, 50⟩
              (fixtureData1.getD 51 default).close then ExitReason.TARGET
          else ExitReason.STOP_LOSS⟩] := by
  have hcond : (slHit fixtureS1 ⟨.LONG, 100, 0, 10, 50⟩ (fixtureData1.getD 51 default).close ||
      tpHit fixtureS1 ⟨.LONG, 100, 0, 10, 50⟩ (fixtureData1.getD 51 default).close ||
      timeHit fixtureS1 ⟨.LONG, 100, 0, 10, 50⟩ 51 ||
      sigHit fixtureS1 fixtureData1 51
        ((calculateAllIndicators fixtureData1).getD 51 default) ⟨.LONG, 100, 0, 10, 50⟩) =
      true := by
    have hsl : slHit fixtureS1 ⟨.LONG, 100, 0, 10, 50⟩
        (fixtureData1.getD 51 default).close = true := by decide
    rw [hsl]
    rfl
  exact ⟨rfl, hcond,
    ((exit_priority_last_wins fixtureS1 fixtureData1 (calculateAllIndicators fixtureData1)
      ⟨1000, some ⟨.LONG, 100, 0, 10, 50⟩, [], [(0, 1000)], 1000, [(0, 0)]⟩ 51
      ⟨.LONG, 100, 0, 10, 50⟩ rfl).1 hcond).1⟩

-- ------------------------------------------------------------------
-- Per-field step lemmas and the generic loop invariant
-- ------------------------------------------------------------------

/-- Every step appends exactly one equity point, whatever the branch. -/
lemma stepBar_equityCurve (s : StrategyConfig) (data : List OHLCV)
    (indicators : List IndicatorValues) (st : BTState) (i : ℕ) :
    (stepBar s data indicators st i).equityCurve = st.equityCurve ++
      [((data.getD i default).timestamp, barEquity st (data.getD i default).close)] := by
  cases hpos : st.position with
  | none =>
    cases hsig : s.entryCondition data i (indicators.getD i default) with
    | none => rw [stepBar_flat_none s data indicators st i hpos hsig, markBar_equityCurve]
    | some ty =>
      rw [stepBar_flat_entry s data indicators st i ty hpos hsig]
      split <;>
        exact markBar_equityCurve st (data.getD i default).timestamp (data.getD i default).close
  | some pos =>
    rw [stepBar_in_position s data indicators st i pos hpos]
    split <;>
      exact markBar_equityCurve st (data.getD i default).timestamp (data.getD i default).close

/-- Every step appends exactly one drawdown point, computed from the raised
peak, whatever the branch. -/
lemma stepBar_drawdownCurve (s : StrategyConfig) (data : List OHLCV)
    (indicators : List IndicatorValues) (st : BTState) (i : ℕ) :
    (stepBar s data indicators st i).drawdownCurve = st.drawdownCurve ++
      [((data.getD i default).timestamp,
        (max st.peakEquity (barEquity st (data.getD i default).close) -
            barEquity st (data.getD i default).close) /
          max st.peakEquity (barEquity st (data.getD i default).close) * 100)] := by
  cases hpos : st.position with
  | none =>
    cases hsig : s.entryCondition data i (indicators.getD i default) with
    | none => rw [stepBar_flat_none s data indicators st i hpos hsig, markBar_drawdownCurve]
    | some ty =>
      rw [stepBar_flat_entry s data indicators st i ty hpos hsig]
      split <;>
        exact markBar_drawdownCurve st (data.getD i default).timestamp (data.getD i default).close
  | some pos =>
    rw [stepBar_in_position s data indicators st i pos hpos]
    split <;>
      exact markBar_drawdownCurve st (data.getD i default).timestamp (data.getD i default).close

/-- Every step raises the running peak to `max peak equity`. -/
lemma stepBar_peakEquity (s : StrategyConfig) (data : List OHLCV)
    (indicators : List IndicatorValues) (st : BTState) (i : ℕ) :
    (stepBar s data indicators st i).peakEquity =
      max st.peakEquity (barEquity st (data.getD i default).close) := by
  cases hpos : st.position with
  | none =>
    cases hsig : s.entryCondition data i (indicators.getD i default) with
    | none => rw [stepBar_flat_none s data indicators st i hpos hsig, markBar_peakEquity]
    | some ty =>
      rw [stepBar_flat_entry s data indicators st i ty hpos hsig]
      split <;>
        exact markBar_peakEquity st (data.getD i default).timestamp (data.getD i default).close
  | some pos =>
    rw [stepBar_in_position s data indicators st i pos hpos]
    split <;>
      exact markBar_peakEquity st (data.getD i default).timestamp (data.getD i default).close

/-- Every step either leaves the trade log and capital untouched, or appends
one closed trade and adds exactly its realized P&L to the capital; the
appended trade never carries the `TRAILING_STOP` tag. -/
lemma stepBar_capital_trades (s : StrategyConfig) (data : List OHLCV)
    (indicators : List IndicatorValues) (st : BTState) (i : ℕ) :
    ((stepBar s data indicators st i).trades = st.trades ∧
      (stepBar s data indicators st i).capital = st.capital) ∨
    (∃ t : BacktestTrade, (stepBar s data indicators st i).trades = st.trades ++ [t] ∧
      (stepBar s data indicators st i).capital = st.capital + t.pnl ∧
      t.exitReason ≠ ExitReason.TRAILING_STOP) := by
  cases hpos : st.position with
  | none =>
    cases hsig : s.entryCondition data i (indicators.getD i default) with
    | none =>
      rw [stepBar_flat_none s data indicators st i hpos hsig]
      exact Or.inl ⟨rfl, rfl⟩
    | some ty =>
      rw [stepBar_flat_entry s data indicators st i ty hpos hsig]
      split <;> exact Or.inl ⟨rfl, rfl⟩
  | some pos =>
    rw [stepBar_in_position s data indicators st i pos hpos]
    split
    · exact Or.inr ⟨_, rfl, rfl, exitDecision_snd_ne_trailing s data i _ pos _⟩
    · exact Or.inl ⟨rfl, rfl⟩

/-- An invariant preserved by every step holds after any prefix of the loop. -/
lemma foldl_stepBar_inv (s : StrategyConfig) (data : List OHLCV)
    (indicators : List IndicatorValues) (P : BTState → Prop)
    (hstep : ∀ st i, P st → P (stepBar s data indicators st i)) :
    ∀ (l : List ℕ) (st : BTState), P st → P (l.foldl (stepBar s data indicators) st) := by
  intro l
  induction l with
  | nil => intro st h; exact h
  | cons a as ih => intro st h; exact ih _ (hstep st a h)

/-- The loop capital is the initial capital plus the realized P&L of the
recorded trades, after any prefix of the loop. -/
lemma foldl_stepBar_capital (s : StrategyConfig) (data : List OHLCV)
    (indicators : List IndicatorValues) (l : List ℕ) (st : BTState)
    (h : st.capital = s.initialCapital + (st.trades.map (·.pnl)).sum) :
    (l.foldl (stepBar s data indicators) st).capital =
      s.initialCapital + (((l.foldl (stepBar s data indicators) st).trades.map (·.pnl)).sum) := by
  refine foldl_stepBar_inv s data indicators
    (fun st2 => st2.capital = s.initialCapital + (st2.trades.map (·.pnl)).sum) ?_ l st h
  intro st2 i h2
  rcases stepBar_capital_trades s data indicators st2 i with ⟨ht, hc⟩ | ⟨t, ht, hc, _⟩
  · rw [ht, hc, h2]
  · rw [ht, hc, h2]
    simp [add_assoc]

/-- No recorded trade carries `TRAILING_STOP`, after any prefix of the loop. -/
lemma foldl_stepBar_no_trailing (s : StrategyConfig) (data : List OHLCV)
    (indicators : List IndicatorValues) (l : List ℕ) (st : BTState)
    (h : ∀ t ∈ st.trades, t.exitReason ≠ ExitReason.TRAILING_STOP) :
    ∀ t ∈ (l.foldl (stepBar s data indicators) st).trades,
      t.exitReason ≠ ExitReason.TRAILING_STOP := by
  refine foldl_stepBar_inv s data indicators
    (fun st2 => ∀ t ∈ st2.trades, t.exitReason ≠ ExitReason.TRAILING_STOP) ?_ l st h
  intro st2 i h2 t ht
  rcases stepBar_capital_trades s data indicators st2 i with ⟨htr, _⟩ | ⟨u, htr, _, hu⟩
  · exact h2 t (htr ▸ ht)
  · rw [htr] at ht
    rcases List.mem_append.mp ht with hmem | hmem
    · exact h2 t hmem
    · rw [List.mem_singleton.mp hmem]
      exact hu

-- ------------------------------------------------------------------
-- C10: the trailing stop is never used
-- ------------------------------------------------------------------

/-- C10: no trade of any run carries the `TRAILING_STOP` exit reason, and
the `trailingStop` configuration field has no effect on the result: the
simulation loop implements no trailing-stop exit. -/
theorem trailingStop_no_effect (data : List OHLCV) (s : StrategyConfig) :
    (∀ t ∈ (runBacktest data s).trades, t.exitReason ≠ ExitReason.TRAILING_STOP) ∧
    (∀ v : Option ℚ, runBacktest data { s with trailingStop := v } = runBacktest data s) := by
  constructor
  · intro t ht
    have : ∀ u ∈ (btFinal data s).trades, u.exitReason ≠ ExitReason.TRAILING_STOP :=
      foldl_stepBar_no_trailing s data (calculateAllIndicators data) (btBars data.length)
        (btInit s) (by intro u hu; cases hu)
    exact this t ht
  · intro v
    rfl

/-- Witness for C10: replacing the trailing stop of `fixtureS1` changes
nothing in the result of the `fixtureData1` run. -/
theorem trailingStop_no_effect_witness :
    runBacktest fixtureData1 { fixtureS1 with trailingStop := some 5 } =
      runBacktest fixtureData1 fixtureS1 :=
  (trailingStop_no_effect fixtureData1 fixtureS1).2 (some 5)

-- ------------------------------------------------------------------
-- C2: no fail-fast validation exists
-- ------------------------------------------------------------------

/-- The loop pushes exactly one equity point per visited bar. -/
lemma foldl_stepBar_equityCurve_length (s : StrategyConfig) (data : List OHLCV)
    (indicators : List IndicatorValues) (l : List ℕ) (st : BTState) :
    (l.foldl (stepBar s data indicators) st).equityCurve.length =
      st.equityCurve.length + l.length := by
  induction l generalizing st with
  | nil => simp
  | cons a as ih =>
    rw [List.foldl_cons, ih, stepBar_equityCurve]
    simp
    omega

/-- C2 (counterexample): with a zero (hence non-positive) initial capital the
simulation does not fail fast: it processes the bar at index 50 and produces
a non-empty equity curve, refuting the claimed `InvalidConfig` rejection
before any bar is processed. -/
theorem invalid_config_counterexample :
    fixtureS2.initialCapital ≤ 0 ∧
    (runBacktest fixtureData2 fixtureS2).equityCurve = [(0, 0)] ∧
    (runBacktest fixtureData2 fixtureS2).equityCurve ≠ [] := by
  refine ⟨by decide, ?_, ?_⟩
  · show (btFinal fixtureData2 fixtureS2).equityCurve = [(0, 0)]
    decide
  · show (btFinal fixtureData2 fixtureS2).equityCurve ≠ []
    decide

/-- C2 (amended): `runBacktest` performs no configuration validation at all:
even with a non-positive initial capital or position size (a missing entry
function is not representable, the field being mandatory in the interface),
the simulation runs to completion and produces one equity point for every
bar from index 50 on. -/
theorem runBacktest_no_validation (data : List OHLCV) (s : StrategyConfig)
    (h : s.initialCapital ≤ 0 ∨ s.positionSize ≤ 0) :
    (runBacktest data s).equityCurve.length = data.length - 50 := by
  show (btFinal data s).equityCurve.length = data.length - 50
  unfold btFinal
  rw [foldl_stepBar_equityCurve_length]
  simp [btInit, btBars]

/-- Witness for the amended C2: the invalid zero-capital config still yields
one equity point on a 51-bar series. -/
theorem runBacktest_no_validation_witness :
    (fixtureS2.initialCapital ≤ 0 ∨ fixtureS2.positionSize ≤ 0) ∧
      (runBacktest fixtureData2 fixtureS2).equityCurve.length = fixtureData2.length - 50 :=
  ⟨Or.inl (by decide),
    runBacktest_no_validation fixtureData2 fixtureS2 (Or.inl (by decide))⟩

-- ------------------------------------------------------------------
-- C3: entry sizing
-- ------------------------------------------------------------------

/-- C3 (counterexample): with the position-size field set to the fraction
`1/2 ∈ (0, 1]`, the recorded quantity is `floor(1000 * ((1/2)/100) / 1) = 5`,
not the claimed `floor(1000 * (1/2) / 1) = 500`: the field is a percentage
divided by 100, not a fraction applied directly. -/
theorem entry_quantity_counterexample :
    (0 : ℚ) < fixtureS3.positionSize ∧ fixtureS3.positionSize ≤ 1 ∧
    (runBacktest fixtureData3 fixtureS3).trades.map (·.quantity) = [5] ∧
    (5 : ℤ) ≠ ⌊(1000 : ℚ) * (1 / 2) / 1⌋ := by
  refine ⟨by decide, by decide, ?_, by decide⟩
  show (btFinal fixtureData3 fixtureS3).trades.map (·.quantity) = [5]
  decide

/-- C3 (amended): when flat and the entry decision fires at bar `i`, the
opened position's quantity is `floor((capital * (positionSize / 100)) /
close[i])` — the position-size field is a percentage of capital — and when
that floor is not positive no position is opened and the state stays flat. -/
theorem entry_quantity_spec (s : StrategyConfig) (data : List OHLCV)
    (indicators : List IndicatorValues) (st : BTState) (i : ℕ) (ty : TradeType)
    (h : st.position = none)
    (hsig : s.entryCondition data i (indicators.getD i default) = some ty) :
    (0 < (⌊st.capital * (s.positionSize / 100) / (data.getD i default).close⌋ : ℤ) →
      (stepBar s data indicators st i).position =
        some ⟨ty, (data.getD i default).close, (data.getD i default).timestamp,
          ⌊st.capital * (s.positionSize / 100) / (data.getD i default).close⌋, i⟩) ∧
    ((⌊st.capital * (s.positionSize / 100) / (data.getD i default).close⌋ : ℤ) ≤ 0 →
      (stepBar s data indicators st i).position = none) := by
  rw [stepBar_flat_entry s data indicators st i ty h hsig]
  constructor
  · intro hq
    rw [if_pos hq]
  · intro hq
    rw [if_neg (not_lt.mpr hq), markBar_position, h]

/-- Witness for the amended C3: on `fixtureData3` the opened position holds
`floor(1000 * ((1/2)/100) / 1) = 5` shares. -/
theorem entry_quantity_spec_witness :
    (btInit fixtureS3).position = none ∧
    fixtureS3.entryCondition fixtureData3 50
      ((calculateAllIndicators fixtureData3).getD 50 default) = some .LONG ∧
    (stepBar fixtureS3 fixtureData3 (calculateAllIndicators fixtureData3)
      (btInit fixtureS3) 50).position = some ⟨.LONG, 1, 0, 5, 50⟩ := by
  refine ⟨rfl, rfl, ?_⟩
  have h := (entry_quantity_spec fixtureS3 fixtureData3 (calculateAllIndicators fixtureData3)
    (btInit fixtureS3) 50 .LONG rfl rfl).1 (by decide)
  rw [h]
  decide

-- ------------------------------------------------------------------
-- C4: an end-of-series open position is left unrealized
-- ------------------------------------------------------------------

lemma btBars_concat (n : ℕ) (h : 50 < n) :
    btBars n = List.range' 50 (n - 51) ++ [n - 1] := by
  unfold btBars
  have h1 : n - 50 = (n - 51) + 1 := by omega
  rw [h1, List.range'_concat]
  have h2 : 50 + 1 * (n - 51) = n - 1 := by omega
  rw [h2]

/-- An open entry at price `close` has zero unrealized P&L at `close`. -/
lemma unrealizedPnL_entry (ty : TradeType) (c : ℚ) (ts : ℤ) (q : ℤ) (i : ℕ) :
    unrealizedPnL ⟨ty, c, ts, q, i⟩ c = 0 := by
  cases ty <;> simp [unrealizedPnL]

/-- If a position is open after a step, the equity point pushed by that step
equals the step's final capital plus the position's unrealized P&L at the
bar's close: an entry made on the bar itself contributes zero. -/
lemma stepBar_open_equity (s : StrategyConfig) (data : List OHLCV)
    (indicators : List IndicatorValues) (st : BTState) (i : ℕ) (pos : Position)
    (h : (stepBar s data indicators st i).position = some pos) :
    barEquity st (data.getD i default).close =
      (stepBar s data indicators st i).capital +
        unrealizedPnL pos (data.getD i default).close := by
  cases hpos : st.position with
  | none =>
    cases hsig : s.entryCondition data i (indicators.getD i default) with
    | none =>
      rw [stepBar_flat_none s data indicators st i hpos hsig, markBar_position, hpos] at h
      cases h
    | some ty =>
      rw [stepBar_flat_entry s data indicators st i ty hpos hsig] at h ⊢
      by_cases hq :
          0 < (⌊st.capital * (s.positionSize / 100) / (data.getD i default).close⌋ : ℤ)
      · rw [if_pos hq] at h ⊢
        have hpe : pos = ⟨ty, (data.getD i default).close, (data.getD i default).timestamp,
            ⌊st.capital * (s.positionSize / 100) / (data.getD i default).close⌋, i⟩ :=
          (Option.some_injective _ h).symm
        rw [hpe, unrealizedPnL_entry]
        show barEquity st (data.getD i default).close = st.capital + 0
        simp [barEquity, hpos]
      · rw [if_neg (by omega), markBar_position, hpos] at h
        cases h
  | some p =>
    rw [stepBar_in_position s data indicators st i p hpos] at h ⊢
    by_cases hed : (exitDecision s data i (indicators.getD i default) p
        (data.getD i default).close).1 = true
    · rw [if_pos hed] at h
      cases h
    · rw [if_neg hed] at h ⊢
      rw [markBar_position, hpos] at h
      have hpe : p = pos := Option.some_injective _ h
      rw [markBar_capital]
      subst hpe
      simp [barEquity, hpos]

/-- C4: when the series ends with a position still open, that position is
not force-closed: the result's trade list and trade-derived statistics come
from the loop's closed trades only, the final capital is the initial capital
plus realized P&L of closed trades only, and the open position contributes
exactly its unrealized P&L to the last equity point. -/
theorem open_position_left_unrealized (data : List OHLCV) (s : StrategyConfig) :
    (runBacktest data s).trades = (btFinal data s).trades ∧
    (runBacktest data s).totalTrades = (btFinal data s).trades.length ∧
    (runBacktest data s).totalPnL = ((btFinal data s).trades.map (·.pnl)).sum ∧
    (btFinal data s).capital =
      s.initialCapital + ((btFinal data s).trades.map (·.pnl)).sum ∧
    (∀ pos : Position, (btFinal data s).position = some pos → 50 < data.length →
      (runBacktest data s).equityCurve.getLast? =
        some ((data.getD (data.length - 1) default).timestamp,
          (btFinal data s).capital +
            unrealizedPnL pos (data.getD (data.length - 1) default).close)) := by
  refine ⟨rfl, rfl, rfl, ?_, ?_⟩
  · exact foldl_stepBar_capital s data (calculateAllIndicators data) (btBars data.length)
      (btInit s) (by simp [btInit])
  · intro pos hpos hlen
    have hsplit : btFinal data s =
        stepBar s data (calculateAllIndicators data)
          ((List.range' 50 (data.length - 51)).foldl
            (stepBar s data (calculateAllIndicators data)) (btInit s))
          (data.length - 1) := by
      unfold btFinal
      rw [btBars_concat data.length hlen, List.foldl_append]
      rfl
    show (btFinal data s).equityCurve.getLast? = _
    rw [hsplit] at hpos ⊢
    rw [stepBar_equityCurve, List.getLast?_concat,
      stepBar_open_equity s data (calculateAllIndicators data) _ _ pos hpos]

/-- Witness for C4: `fixtureS4` opens at the last bar of the 51-bar flat
series and stays open; the final capital carries no unrealized P&L and the
last equity point equals capital plus the (zero) unrealized P&L. -/
theorem open_position_left_unrealized_witness :
    (btFinal fixtureData2 fixtureS4).position = some ⟨.LONG, 100, 0, 10, 50⟩ ∧
    50 < fixtureData2.length ∧
    (runBacktest fixtureData2 fixtureS4).equityCurve.getLast? =
      some ((fixtureData2.getD (fixtureData2.length - 1) default).timestamp,
        (btFinal fixtureData2 fixtureS4).capital +
          unrealizedPnL ⟨.LONG, 100, 0, 10, 50⟩
            (fixtureData2.getD (fixtureData2.length - 1) default).close) :=
  ⟨by decide, by decide,
    (open_position_left_unrealized fixtureData2 fixtureS4).2.2.2.2
      ⟨.LONG, 100, 0, 10, 50⟩ (by decide) (by decide)⟩

-- ------------------------------------------------------------------
-- C7: running peak and drawdown invariants
-- ------------------------------------------------------------------

lemma btStateAt_succ (data : List OHLCV) (s : StrategyConfig) (j i : ℕ)
    (h : (btBars data.length)[j]? = some i) :
    btStateAt data s (j + 1) =
      stepBar s data (calculateAllIndicators data) (btStateAt data s j) i := by
  unfold btStateAt
  rw [List.take_succ, h, List.foldl_append]
  rfl

lemma btStateAt_succ_stable (data : List OHLCV) (s : StrategyConfig) (j : ℕ)
    (h : (btBars data.length)[j]? = none) :
    btStateAt data s (j + 1) = btStateAt data s j := by
  unfold btStateAt
  rw [List.take_succ, h]
  simp

lemma btStateAt_peak_step (data : List OHLCV) (s : StrategyConfig) (j : ℕ) :
    (btStateAt data s j).peakEquity ≤ (btStateAt data s (j + 1)).peakEquity := by
  cases h : (btBars data.length)[j]? with
  | none => rw [btStateAt_succ_stable data s j h]
  | some i =>
    rw [btStateAt_succ data s j i h, stepBar_peakEquity]
    exact le_max_left _ _

/-- C7: with a positive initial capital, the running peak equity is
monotonically non-decreasing across the bars of the run, each step appends
to the drawdown curve exactly the point
`(peak - equity) / peak * 100` computed from the raised peak, and every
recorded drawdown value is non-negative. -/
theorem drawdown_spec (data : List OHLCV) (s : StrategyConfig)
    (h : 0 < s.initialCapital) :
    (∀ j k : ℕ, j ≤ k →
      (btStateAt data s j).peakEquity ≤ (btStateAt data s k).peakEquity) ∧
    (∀ j i : ℕ, (btBars data.length)[j]? = some i →
      (btStateAt data s (j + 1)).drawdownCurve = (btStateAt data s j).drawdownCurve ++
        [((data.getD i default).timestamp,
          ((btStateAt data s (j + 1)).peakEquity -
              barEquity (btStateAt data s j) (data.getD i default).close) /
            (btStateAt data s (j + 1)).peakEquity * 100)]) ∧
    (∀ p ∈ (runBacktest data s).drawdownCurve, 0 ≤ p.2) := by
  refine ⟨?_, ?_, ?_⟩
  · intro j k hjk
    induction k, hjk using Nat.le_induction with
    | base => exact le_refl _
    | succ m hm ih => exact le_trans ih (btStateAt_peak_step data s m)
  · intro j i hji
    rw [btStateAt_succ data s j i hji, stepBar_drawdownCurve, stepBar_peakEquity]
  · have hinv : s.initialCapital ≤ (btFinal data s).peakEquity ∧
        ∀ p ∈ (btFinal data s).drawdownCurve, 0 ≤ p.2 := by
      refine foldl_stepBar_inv s data (calculateAllIndicators data)
        (fun st => s.initialCapital ≤ st.peakEquity ∧ ∀ p ∈ st.drawdownCurve, 0 ≤ p.2)
        ?_ (btBars data.length) (btInit s) ⟨le_refl _, by intro p hp; cases hp⟩
    -- step preservation
      intro st i2 ⟨hpeak, hdd⟩
      constructor
      · rw [stepBar_peakEquity]
        exact le_trans hpeak (le_max_left _ _)
      · intro p hp
        rw [stepBar_drawdownCurve] at hp
        rcases List.mem_append.mp hp with hmem | hmem
        · exact hdd p hmem
        · rw [List.mem_singleton.mp hmem]
          have hme : barEquity st (data.getD i2 default).close ≤
              max st.peakEquity (barEquity st (data.getD i2 default).close) :=
            le_max_right _ _
          have hppos : 0 < max st.peakEquity (barEquity st (data.getD i2 default).close) :=
            lt_of_lt_of_le h (le_trans hpeak (le_max_left _ _))
          have : 0 ≤ (max st.peakEquity (barEquity st (data.getD i2 default).close) -
              barEquity st (data.getD i2 default).close) /
              max st.peakEquity (barEquity st (data.getD i2 default).close) :=
            div_nonneg (by linarith) (le_of_lt hppos)
          show (0 : ℚ) ≤ _ * 100
          positivity
    intro p hp
    exact hinv.2 p hp

/-- Witness for C7: at positive fixture capital the peak after the first
bar of the `fixtureData1` run dominates the initial peak, and the first
drawdown point of the run is non-negative. -/
theorem drawdown_spec_witness :
    (0 : ℚ) < fixtureS1.initialCapital ∧
    (btStateAt fixtureData1 fixtureS1 0).peakEquity ≤
      (btStateAt fixtureData1 fixtureS1 2).peakEquity :=
  ⟨by decide, (drawdown_spec fixtureData1 fixtureS1 (by decide)).1 0 2 (by omega)⟩

-- ------------------------------------------------------------------
-- C8: zero closed trades degrade every rate and ratio to 0
-- ------------------------------------------------------------------

lemma btFinal_capital_no_trades (data : List OHLCV) (s : StrategyConfig)
    (h : (btFinal data s).trades = []) :
    (btFinal data s).capital = s.initialCapital := by
  have hc := foldl_stepBar_capital s data (calculateAllIndicators data)
    (btBars data.length) (btInit s) (by simp [btInit])
  have hc2 : (btFinal data s).capital =
      s.initialCapital + (((btFinal data s).trades.map (·.pnl)).sum) := hc
  rw [h] at hc2
  simpa using hc2

/-- C8: when a run closes zero trades, every rate and ratio statistic of the
result — win rate, profit factor, Sharpe, Sortino, Calmar, average win,
average loss, average holding period — is exactly 0 (never `NaN`, never an
error). -/
theorem zero_trades_metrics (data : List OHLCV) (s : StrategyConfig)
    (h : (runBacktest data s).trades = []) :
    (runBacktest data s).winRate = 0 ∧
    (runBacktest data s).profitFactor = some 0 ∧
    (runBacktest data s).sharpeRatio = 0 ∧
    (runBacktest data s).sortinoRatio = 0 ∧
    (runBacktest data s).calmarRatio = 0 ∧
    (runBacktest data s).avgWin = 0 ∧
    (runBacktest data s).avgLoss = 0 ∧
    (runBacktest data s).avgHoldingPeriod = 0 := by
  have hfin : (btFinal data s).trades = [] := h
  have hcap : (btFinal data s).capital = s.initialCapital :=
    btFinal_capital_no_trades data s hfin
  refine ⟨?_, ?_, ?_, ?_, ?_, ?_, ?_, ?_⟩ <;>
    simp only [runBacktest, hfin, hcap, List.filter_nil, List.map_nil, List.length_nil,
      List.sum_nil, Nat.cast_zero, zero_div, sub_self, zero_mul, mul_zero, Rat.cast_zero,
      Real.sqrt_zero, lt_irrefl, if_false]
  · simp
  · rcases hm : jsMaxList ((btFinal data s).drawdownCurve.map Prod.snd) with _ | m <;> simp

/-- Witness for C8: the empty series runs an empty loop, closes no trade,
and every rate and ratio is 0. -/
theorem zero_trades_metrics_witness :
    (runBacktest [] fixtureS4).trades = [] ∧
    (runBacktest [] fixtureS4).winRate = 0 ∧
    (runBacktest [] fixtureS4).profitFactor = some 0 ∧
    (runBacktest [] fixtureS4).sharpeRatio = 0 :=
  ⟨rfl, (zero_trades_metrics [] fixtureS4 rfl).1,
    (zero_trades_metrics [] fixtureS4 rfl).2.1,
    (zero_trades_metrics [] fixtureS4 rfl).2.2.1⟩

/-- Witness for C5: on the constant series `[5, 5, 5]` with period 1, the
defined value at index 2 is 100 and lies in `[0, 100]`. -/
theorem calculateRSI_spec_witness :
    (calculateRSI [5, 5, 5] 1)[2]? = some (some 100) ∧
      ((0 : ℚ) ≤ 100 ∧ (100 : ℚ) ≤ 100) :=
  ⟨by decide, (calculateRSI_spec [5, 5, 5] 1).1 2 100 (by decide)⟩



end BacktestEngine
